import Mathlib

/-!
Verification development for the zflag command-line flag library.

The Go sources are shallowly embedded: mutable state (the `FlagSet` registry
and the per-flag `Value` cells) is threaded explicitly, machine integers are
`Int`/`Nat` with explicit clamping where Go's `strconv` clamps, and fallible
operations return their result together with an `Option String` error, mirroring
Go's `(value, error)` convention.  Go strings are modelled at rune granularity
(`String`/`List Char`); all inputs exercised here are ASCII, where Go's byte
indexing and rune indexing coincide.

Process-level effects (writing usage text to the output sink, `os.Exit`,
`panic`) are not state of the parse; panics at flag-definition time are
modelled as the `Except.error` branch of `AddFlag`.
-/

namespace Zflag

/-- Wrap a string in double quotes: a simplified model of Go's `%q` verb
(none of the strings involved need escaping). -/
def quoteStr (s : String) : String := "\"" ++ s ++ "\""

/-- Render a rune the way Go's `%q` renders it, simplified to plain quoting. -/
def quoteRune (c : Char) : String := "'" ++ String.mk [c] ++ "'"

/-! ### Model of `strconv.ParseInt`/`ParseUint` with base 0 and `ParseBool`

Faithful to Go's `strconv/atoi.go` for sign handling, base-prefix detection
(`0x`/`0X`, `0o`/`0O`, `0b`/`0B`, bare leading `0` means octal), immediate
syntax failure on the first invalid digit (yielding value 0), and immediate
range failure with a clamped value.  Digit-group underscores are not modelled
(no input in this development contains `_`). -/

inductive NumErr where
  | syntaxErr
  | rangeErr
deriving DecidableEq

/-- Error text of Go's `*strconv.NumError` as produced by `ParseInt`. -/
def numErrMsg (fn s : String) : NumErr → String
  | .syntaxErr => "strconv." ++ fn ++ ": parsing " ++ quoteStr s ++ ": invalid syntax"
  | .rangeErr => "strconv." ++ fn ++ ": parsing " ++ quoteStr s ++ ": value out of range"

/-- Value of one digit character, as in Go `strconv` (letters are hex digits). -/
def digitVal (c : Char) : Option Nat :=
  if '0' ≤ c ∧ c ≤ '9' then some (c.toNat - '0'.toNat)
  else if 'a' ≤ c ∧ c ≤ 'z' then some (c.toNat - 'a'.toNat + 10)
  else if 'A' ≤ c ∧ c ≤ 'Z' then some (c.toNat - 'A'.toNat + 10)
  else none

/-- Unsigned 64-bit maximum, the clamp Go's `ParseUint(_, _, 64)` returns on
range errors. -/
def maxUint64 : Nat := 2 ^ 64 - 1

/-- The digit-accumulation loop of Go's `ParseUint`: first invalid character is
a syntax error with value 0; first overflow is a range error with the clamped
maximum. -/
def parseUintLoop (base : Nat) : List Char → Nat → Nat × Option NumErr
  | [], acc => (acc, none)
  | c :: rest, acc =>
    match digitVal c with
    | none => (0, some .syntaxErr)
    | some d =>
      if d ≥ base then (0, some .syntaxErr)
      else
        let acc' := acc * base + d
        if acc' > maxUint64 then (maxUint64, some .rangeErr)
        else parseUintLoop base rest acc'

/-- Go `strconv.ParseUint(s, 0, 64)` on a sign-free string: base-prefix
detection then digit accumulation.  An empty string is a syntax error, but a
string that becomes empty after stripping a bare leading `0` parses as 0. -/
def goParseUint64 (s : List Char) : Nat × Option NumErr :=
  match s with
  | [] => (0, some .syntaxErr)
  | '0' :: rest =>
    match rest with
    | [] => parseUintLoop 8 [] 0
    | c :: rest' =>
      if (c = 'b' ∨ c = 'B') ∧ rest' ≠ [] then parseUintLoop 2 rest' 0
      else if (c = 'o' ∨ c = 'O') ∧ rest' ≠ [] then parseUintLoop 8 rest' 0
      else if (c = 'x' ∨ c = 'X') ∧ rest' ≠ [] then parseUintLoop 16 rest' 0
      else parseUintLoop 8 rest 0
  | _ => parseUintLoop 10 s 0

/-- Go `strconv.ParseInt(s, 0, 64)`: strip one optional sign, parse the
magnitude with `goParseUint64`, then apply the signed 64-bit cutoff, clamping
to `maxInt64`/`minInt64` on range errors and returning 0 on syntax errors. -/
def goParseInt64 (s : List Char) : Int × Option NumErr :=
  match s with
  | [] => (0, some .syntaxErr)
  | c0 :: rest =>
    let neg : Bool := c0 = '-'
    let mag : List Char := if c0 = '+' ∨ c0 = '-' then rest else s
    let r := goParseUint64 mag
    match r.2 with
    | some .syntaxErr => (0, some .syntaxErr)
    | e =>
      let cutoff : Nat := 2 ^ 63
      if !neg ∧ r.1 ≥ cutoff then ((cutoff - 1 : Nat), some .rangeErr)
      else if neg ∧ r.1 > cutoff then (-(cutoff : Int), some .rangeErr)
      else ((if neg then -(r.1 : Int) else (r.1 : Int)), e)

/-- Go `strconv.ParseBool`: the exact accepted spellings; anything else is a
syntax error with value `false`. -/
def goParseBool (s : String) : Bool × Option String :=
  if s = "1" ∨ s = "t" ∨ s = "T" ∨ s = "true" ∨ s = "TRUE" ∨ s = "True" then
    (true, none)
  else if s = "0" ∨ s = "f" ∨ s = "F" ∨ s = "false" ∨ s = "FALSE" ∨ s = "False" then
    (false, none)
  else
    (false, some ("strconv.ParseBool: parsing " ++ quoteStr s ++ ": invalid syntax"))

/-! ### Model of `encoding/csv` reading one record (`readAsCSV`)

Go's `csv.Reader.Read` with default settings on a single line: fields are
comma-separated; a field starting with `"` is quoted and may contain commas,
with `""` an escaped quote; a bare quote inside an unquoted field, a stray
character after a closing quote, and an unterminated quoted field are parse
errors. -/

inductive CsvMode where
  | fieldStart
  | unquoted
  | quoted
  | afterQuote
deriving DecidableEq

/-- State machine over the characters of one CSV record.  `acc` holds the
current field (reversed), `fields` the completed fields (reversed). -/
def csvRun : List Char → CsvMode → List Char → List String → Except String (List String)
  | [], mode, acc, fields =>
    match mode with
    | .quoted => .error "parse error on line 1, column 0: extraneous or missing \" in quoted-field"
    | _ => .ok ((String.mk acc.reverse :: fields).reverse)
  | c :: rest, mode, acc, fields =>
    match mode with
    | .fieldStart =>
      if c = '"' then csvRun rest .quoted acc fields
      else if c = ',' then csvRun rest .fieldStart [] (String.mk acc.reverse :: fields)
      else csvRun rest .unquoted (c :: acc) fields
    | .unquoted =>
      if c = ',' then csvRun rest .fieldStart [] (String.mk acc.reverse :: fields)
      else if c = '"' then .error "parse error on line 1, column 0: bare \" in non-quoted-field"
      else csvRun rest .unquoted (c :: acc) fields
    | .quoted =>
      if c = '"' then csvRun rest .afterQuote acc fields
      else csvRun rest .quoted (c :: acc) fields
    | .afterQuote =>
      if c = '"' then csvRun rest .quoted ('"' :: acc) fields
      else if c = ',' then csvRun rest .fieldStart [] (String.mk acc.reverse :: fields)
      else .error "parse error on line 1, column 0: extraneous or missing \" in quoted-field"

/-- `readAsCSV` from `string_slice.go`: the empty string is the empty list,
otherwise the string is read as one CSV record. -/
def readAsCSV (val : String) : Except String (List String) :=
  if val = "" then .ok []
  else csvRun val.toList .fieldStart [] []

/-- One CSV field as written by `encoding/csv`: quoted (with `"` doubled) when
it contains a comma, a quote, or a line break. -/
def writeCSVField (s : String) : String :=
  if s.toList.any (fun c => c = ',' ∨ c = '"' ∨ c = '\n' ∨ c = '\r') then
    "\"" ++ String.mk (s.toList.foldr (fun c acc => if c = '"' then '"' :: '"' :: acc else c :: acc) []) ++ "\""
  else s

/-- `writeAsCSV` from `string_slice.go`: one CSV record without the trailing
newline. -/
def writeAsCSV (vals : List String) : String :=
  String.intercalate "," (vals.map writeCSVField)

/-! ### The Value catalog

The `Value` interface is modelled as an inductive over the concrete
implementations the claims exercise: `intValue` (`int.go`), `boolValue`
(`bool.go`), `countValue` (`count.go`), `stringValue` (`string.go`) and
`stringSliceValue` (`string_slice.go`).  Each constructor carries the mutable
content of the Go value cell; `stringSliceValue` also carries its `changed`
flag. -/

inductive Val where
  | intValue (v : Int)
  | boolValue (b : Bool)
  | countValue (v : Int)
  | stringValue (s : String)
  | stringSliceValue (value : List String) (changed : Bool)
deriving DecidableEq

namespace Val

/-- `Type()` of each Value implementation (`Type` is a Lean keyword, hence
the name `typeName`). -/
def typeName : Val → String
  | intValue _ => "int"
  | boolValue _ => "bool"
  | countValue _ => "count"
  | stringValue _ => "string"
  | stringSliceValue _ _ => "stringSlice"

/-- `Set` of each Value implementation.  Mirrors the Go methods exactly:
the scalar numeric/bool cells store the conversion result *before* returning
the error (`*i = intValue(v); return err`), so a failed conversion still
overwrites the cell; `stringSliceValue.Set` returns the CSV error before any
mutation, then overwrites on the first call and appends afterwards, setting
`changed`. -/
def Set : Val → String → Val × Option String
  | intValue _, s =>
    let r := goParseInt64 s.toList
    (intValue r.1, r.2.map (numErrMsg "ParseInt" s))
  | boolValue _, s =>
    let r := goParseBool s
    (boolValue r.1, r.2)
  | countValue i, s =>
    if s = "+1" then (countValue (i + 1), none)
    else
      let r := goParseInt64 s.toList
      (countValue r.1, r.2.map (numErrMsg "ParseInt" s))
  | stringValue _, s => (stringValue s, none)
  | stringSliceValue value changed, s =>
    match readAsCSV s with
    | .error e => (stringSliceValue value changed, some e)
    | .ok v => (stringSliceValue (if changed then value ++ v else v) true, none)

/-- `String()` of each Value implementation (used for the `DefValue`
snapshot; slice values wrap their CSV rendering in display-only brackets). -/
def render : Val → String
  | intValue v => toString v
  | boolValue b => if b then "true" else "false"
  | countValue v => toString v
  | stringValue s => s
  | stringSliceValue value _ => "[" ++ writeAsCSV value ++ "]"

end Val

/-! ### Flag records and the FlagSet registry -/

/-- A `Flag` record (`flag.go`).  Go's `Shorthand rune` uses 0 for "no
shorthand"; that sentinel is `none` here.  Usage-rendering-only fields
(`UsageType`, `DisableUnquoteUsage`, `DisablePrintDefault`, `Annotations`)
are omitted: no parsing or accessor path reads them. -/
structure Flag where
  Name : String
  Shorthand : Option Char := none
  ShorthandOnly : Bool := false
  Usage : String := ""
  Value : Val
  DefValue : String := ""
  Changed : Bool := false
  NoOptDefVal : String := ""
  Deprecated : String := ""
  Hidden : Bool := false
  ShorthandDeprecated : String := ""
  Group : String := ""
deriving DecidableEq

/-- How a `FlagSet` reacts to parse errors (`flag.go`). -/
inductive ErrorHandling where
  | ContinueOnError
  | ExitOnError
  | PanicOnError
deriving DecidableEq

/-- The flag registry (`flag.go`).  `formal` is the insertion-ordered flag
list and doubles as the name-keyed map (names are unique); `shorthands` maps
a shorthand rune to the name of the flag that owns it; `actual` is the
insertion-ordered list of normalized names of flags that have been set.
Usage-rendering state (`Usage`, `SortFlags`, the sorted caches, the output
sink, `FlagUsageFormatter`, `addedGoFlagSets`) is omitted. -/
structure FlagSet where
  name : String := ""
  parsed : Bool := false
  formal : List Flag := []
  actual : List String := []
  shorthands : List (Char × String) := []
  args : List String := []
  argsLenAtDash : Int := -1
  errorHandling : ErrorHandling := .ContinueOnError
  interspersed : Bool := true
  normalizeNameFunc : Option (String → String) := none
  ParseErrorsAllowlistUnknownFlags : Bool := false
  DisableBuiltinHelp : Bool := false
  unknownFlags : List String := []

/-- `NewFlagSet`. -/
def NewFlagSet (name : String) (errorHandling : ErrorHandling) : FlagSet :=
  { name := name, errorHandling := errorHandling, argsLenAtDash := -1, interspersed := true }

namespace FlagSet

/-- `normalizeFlagName`: apply the installed normalization function, or the
identity when none is installed (`GetNormalizeFunc`). -/
def normalizeFlagName (fs : FlagSet) (name : String) : String :=
  (fs.normalizeNameFunc.getD id) name

/-- The `formal` map lookup by already-normalized name (`lookup`). -/
def lookupNorm (fs : FlagSet) (nn : String) : Option Flag :=
  fs.formal.find? (fun fl => fl.Name == nn)

/-- `Lookup`: normalize, then look up. -/
def Lookup (fs : FlagSet) (name : String) : Option Flag :=
  fs.lookupNorm (fs.normalizeFlagName name)

/-- Rewrite the flag stored under normalized name `nn` (the functional image
of mutating the Go `*Flag` in place). -/
def updateFormal (fs : FlagSet) (nn : String) (g : Flag → Flag) : FlagSet :=
  { fs with formal := fs.formal.map (fun fl => if fl.Name == nn then g fl else fl) }

/-- `ShorthandLookup`, flattened through the shorthand-to-name index. -/
def ShorthandLookup (fs : FlagSet) (c : Char) : Option Flag :=
  match fs.shorthands.find? (fun p => p.1 == c) with
  | none => none
  | some p => fs.lookupNorm p.2

/-- `addUnknownFlag`. -/
def addUnknownFlag (fs : FlagSet) (s : String) : FlagSet :=
  { fs with unknownFlags := fs.unknownFlags ++ [s] }

/-- `GetUnknownFlags`. -/
def GetUnknownFlags (fs : FlagSet) : List String :=
  fs.unknownFlags

/-- `ArgsLenAtDash`. -/
def ArgsLenAtDash (fs : FlagSet) : Int :=
  fs.argsLenAtDash

/-- `Changed`. -/
def ChangedFlag (fs : FlagSet) (name : String) : Bool :=
  match fs.Lookup name with
  | none => false
  | some flag => flag.Changed

end FlagSet

/-- `errUnknownFlag.Error()` (`errors.go`): one dash for one-character names,
two otherwise. -/
def unknownFlagErrorMsg (name : String) : String :=
  let dash := if name.length == 1 then "-" else "--"
  "unknown flag: " ++ dash ++ name

/-- The display name `FlagSet.Set` uses in its invalid-argument error: the
shorthand (plus the long name unless shorthand-only) when a non-deprecated
shorthand exists, else the long name. -/
def flagNameLabel (flag : Flag) : String :=
  match flag.Shorthand with
  | some c =>
    if flag.ShorthandDeprecated = "" then
      if flag.ShorthandOnly then "-" ++ String.mk [c]
      else "-" ++ String.mk [c] ++ ", --" ++ flag.Name
    else "--" ++ flag.Name
  | none => "--" ++ flag.Name

namespace FlagSet

/-- `FlagSet.Set` (`flag.go` lines 428-463).  The returned `FlagSet` reflects
every mutation the Go code performs through the flag pointer: the `Value` cell
is updated even when `Value.Set` failed (the error is returned after the
cell mutation), while `Changed` and the `actual` collection are touched only
on the first successful set.  The deprecation warning is output only and not
modelled. -/
def Set (fs : FlagSet) (name value : String) : FlagSet × Option String :=
  let normalName := fs.normalizeFlagName name
  match fs.lookupNorm normalName with
  | none => (fs, some (unknownFlagErrorMsg name))
  | some flag =>
    match flag.Value.Set value with
    | (v', some err) =>
      (fs.updateFormal normalName (fun fl => { fl with Value := v' }),
       some ("invalid argument " ++ quoteStr value ++ " for " ++
             quoteStr (flagNameLabel flag) ++ " flag: " ++ err))
    | (v', none) =>
      if flag.Changed then
        (fs.updateFormal normalName (fun fl => { fl with Value := v' }), none)
      else
        ({ fs.updateFormal normalName (fun fl => { fl with Value := v', Changed := true }) with
           actual := fs.actual ++ [normalName] }, none)

/-- `getFlagType` (`flag.go` lines 380-400): undefined names fail; a non-empty
requested type must match the Value's `Type()`.  Every Value in the catalog
implements `Typed` and `Getter`, so the remaining interface checks succeed and
the stored Value is returned. -/
def getFlagType (fs : FlagSet) (name ftype : String) : Except String Val :=
  match fs.Lookup name with
  | none => .error ("flag accessed but not defined: " ++ name)
  | some flag =>
    if ftype ≠ "" ∧ flag.Value.typeName ≠ ftype then
      .error ("trying to get " ++ quoteStr ftype ++ " value of flag of type " ++
              quoteStr flag.Value.typeName)
    else .ok flag.Value

/-- `Get`: the untyped accessor. -/
def Get (fs : FlagSet) (name : String) : Except String Val :=
  fs.getFlagType name ""

/-- `GetInt` (`int.go`): `(0, error)` on failure.  The final wildcard arm is
unreachable (the type check guarantees an `intValue`); Go would panic on the
corresponding failed type assertion. -/
def GetInt (fs : FlagSet) (name : String) : Int × Option String :=
  match fs.getFlagType name "int" with
  | .error e => (0, some e)
  | .ok (.intValue v) => (v, none)
  | .ok _ => (0, some "impossible: failed type assertion")

/-- `GetBool` (`bool.go`). -/
def GetBool (fs : FlagSet) (name : String) : Bool × Option String :=
  match fs.getFlagType name "bool" with
  | .error e => (false, some e)
  | .ok (.boolValue b) => (b, none)
  | .ok _ => (false, some "impossible: failed type assertion")

/-- `GetCount` (`count.go`). -/
def GetCount (fs : FlagSet) (name : String) : Int × Option String :=
  match fs.getFlagType name "count" with
  | .error e => (0, some e)
  | .ok (.countValue v) => (v, none)
  | .ok _ => (0, some "impossible: failed type assertion")

/-- `GetStringSlice` (`string_slice.go`). -/
def GetStringSlice (fs : FlagSet) (name : String) : List String × Option String :=
  match fs.getFlagType name "stringSlice" with
  | .error e => ([], some e)
  | .ok (.stringSliceValue v _) => (v, none)
  | .ok _ => ([], some "impossible: failed type assertion")

/-- `AddFlag` (`flag.go` lines 894-924).  The two Go panics (duplicate name,
duplicate shorthand) are the `Except.error` branches; they carry the panic
message and abort without producing a registry. -/
def AddFlag (fs : FlagSet) (flag : Flag) : Except String FlagSet :=
  let normalizedFlagName := fs.normalizeFlagName flag.Name
  if (fs.lookupNorm normalizedFlagName).isSome then
    .error (fs.name ++ " flag redefined: " ++ flag.Name)
  else
    let flag := { flag with Name := normalizedFlagName }
    let fs := { fs with formal := fs.formal ++ [flag] }
    match flag.Shorthand with
    | none => .ok fs
    | some c =>
      match fs.shorthands.find? (fun p => p.1 == c) with
      | some used =>
        .error ("unable to redefine " ++ quoteRune c ++ " shorthand in " ++
                quoteStr fs.name ++ " flagset: it is already used for " ++
                quoteStr used.2 ++ " flag")
      | none => .ok { fs with shorthands := fs.shorthands ++ [(c, flag.Name)] }

/-- Registration helper for building the concrete example registries below:
`AddFlag`, keeping the set unchanged if registration would panic (every use
below registers a fresh name/shorthand, so the fallback never fires). -/
def mustAdd (fs : FlagSet) (flag : Flag) : FlagSet :=
  match fs.AddFlag flag with
  | .ok fs' => fs'
  | .error _ => fs

end FlagSet

/-! ### The argument parser

`Parse` instantiates the `parseFunc` parameter of `parseAll` with
`FlagSet.Set` applied to the flag's name; the embedding specializes the
parser to that instantiation (the only one the claims concern). -/

/-- Outcome of a failing parse step: the distinguished help request
(`ErrHelp`) or an error message produced through `failf` (whose printing side
effect is not modelled). -/
inductive GoError where
  | errHelp
  | errMsg (s : String)
deriving DecidableEq

/-- `strings.SplitN(name, "=", 2)` on the rune list of `name`: the part before
the first `=`, and the part after it when one exists. -/
def splitN2Eq (cs : List Char) : String × Option String :=
  let sp := cs.span (fun c => c != '=')
  match sp.2 with
  | [] => (String.mk sp.1, none)
  | _ :: rest => (String.mk sp.1, some (String.mk rest))

namespace FlagSet

/-- `stripUnknownFlagValue` (`flag.go` lines 974-992): consume one following
token as the unknown flag's discarded value unless no token remains, the next
token starts with `-`, or it is the only token left; a consumed token is
itself recorded in the unknown list. -/
def stripUnknownFlagValue (fs : FlagSet) (args : List String) : FlagSet × List String :=
  match args with
  | [] => (fs, [])
  | first :: rest =>
    if first.toList.head? = some '-' then (fs, first :: rest)
    else
      match rest with
      | _ :: _ => (fs.addUnknownFlag first, rest)
      | [] => (fs, [])

/-- `parseLongArg` (`flag.go` lines 994-1049) with `fn = FlagSet.Set`.
Returns the updated registry, the remaining token vector, and the step
outcome. -/
def parseLongArg (fs : FlagSet) (s : String) (args : List String) :
    FlagSet × List String × Option GoError :=
  match s.toList.drop 2 with
  | [] => (fs, args, some (.errMsg ("bad flag syntax: " ++ s)))
  | c :: cs =>
    if c = '-' ∨ c = '=' then (fs, args, some (.errMsg ("bad flag syntax: " ++ s)))
    else
      let split := splitN2Eq (c :: cs)
      let name := split.1
      match fs.lookupNorm (fs.normalizeFlagName name) with
      | none =>
        if name = "help" ∧ ¬fs.DisableBuiltinHelp then (fs, args, some .errHelp)
        else if fs.ParseErrorsAllowlistUnknownFlags then
          let fs := fs.addUnknownFlag s
          match split.2 with
          | some _ => (fs, args, none)
          | none =>
            let r := fs.stripUnknownFlagValue args
            (r.1, r.2, none)
        else (fs, args, some (.errMsg (unknownFlagErrorMsg name)))
      | some flag =>
        if flag.ShorthandOnly then
          let fs := fs.addUnknownFlag s
          match split.2 with
          | some _ => (fs, args, none)
          | none =>
            let r := fs.stripUnknownFlagValue args
            (r.1, r.2, none)
        else
          match split.2 with
          | some value =>
            let r := fs.Set flag.Name value
            (r.1, args, r.2.map .errMsg)
          | none =>
            if flag.NoOptDefVal ≠ "" then
              let r := fs.Set flag.Name flag.NoOptDefVal
              (r.1, args, r.2.map .errMsg)
            else
              match args with
              | a :: rest =>
                let r := fs.Set flag.Name a
                (r.1, rest, r.2.map .errMsg)
              | [] => (fs, args, some (.errMsg ("flag needs an argument: " ++ s)))

/-- `parseSingleShortArg` (`flag.go` lines 1051-1113) with `fn = FlagSet.Set`.
`shorthands` is the rune list of the (dash-stripped) cluster.  Returns the
updated registry, the remaining cluster, the remaining token vector, and the
step outcome.  The shorthand deprecation warning is output only. -/
def parseSingleShortArg (fs : FlagSet) (shorthands : List Char) (args : List String) :
    FlagSet × List Char × List String × Option GoError :=
  match shorthands with
  | [] => (fs, [], args, none)
  | char :: outShorts =>
    match fs.ShorthandLookup char with
    | none =>
      if char = 'h' ∧ ¬fs.DisableBuiltinHelp then (fs, outShorts, args, some .errHelp)
      else if fs.ParseErrorsAllowlistUnknownFlags then
        if shorthands.length > 2 then
          (fs.addUnknownFlag ("-" ++ String.mk shorthands), [], args, none)
        else
          let fs := fs.addUnknownFlag ("-" ++ String.mk [char])
          if outShorts.length == 0 then
            let r := fs.stripUnknownFlagValue args
            (r.1, outShorts, r.2, none)
          else (fs, outShorts, args, none)
      else
        (fs, outShorts, args,
         some (.errMsg ("unknown shorthand flag: " ++ quoteRune char ++ " in -" ++
                        String.mk shorthands)))
    | some flag =>
      if shorthands.length > 2 ∧ shorthands.get? 1 = some '=' then
        let r := fs.Set flag.Name (String.mk (shorthands.drop 2))
        (r.1, [], args, r.2.map .errMsg)
      else if flag.NoOptDefVal ≠ "" then
        let r := fs.Set flag.Name flag.NoOptDefVal
        (r.1, outShorts, args, r.2.map .errMsg)
      else if shorthands.length > 1 then
        let r := fs.Set flag.Name (String.mk outShorts)
        (r.1, [], args, r.2.map .errMsg)
      else
        match args with
        | a :: rest =>
          let r := fs.Set flag.Name a
          (r.1, outShorts, rest, r.2.map .errMsg)
        | [] =>
          (fs, outShorts, args,
           some (.errMsg ("flag needs an argument: " ++ quoteRune char ++ " in -" ++
                          String.mk shorthands)))

/-- The loop of `parseShortArg`: decode shorthands from the cluster until it
is exhausted or a step fails.  As in the source, every iteration passes the
*original* token vector; `outArgs` carries the last step's remaining vector
(only the final shorthand of a cluster can consume a vector token).  `fuel`
bounds the iterations; each step strips at least one rune from the cluster,
so `shorthands.length` iterations always suffice. -/
def parseShortArgLoop (fuel : Nat) (fs : FlagSet) (shorthands : List Char)
    (args outArgs : List String) : FlagSet × List String × Option GoError :=
  match fuel with
  | 0 => (fs, outArgs, none)
  | fuel + 1 =>
    if shorthands.isEmpty then (fs, outArgs, none)
    else
      let r := fs.parseSingleShortArg shorthands args
      match r.2.2.2 with
      | some e => (r.1, r.2.2.1, some e)
      | none => parseShortArgLoop fuel r.1 r.2.1 args r.2.2.1

/-- `parseShortArg` (`flag.go` lines 1115-1128). -/
def parseShortArg (fs : FlagSet) (s : String) (args : List String) :
    FlagSet × List String × Option GoError :=
  let shorthands := s.toList.drop 1
  parseShortArgLoop (shorthands.length + 1) fs shorthands args args

/-- The token loop of `parseArgs` (`flag.go` lines 1130-1159).  `fuel` bounds
the iterations; each iteration consumes the head token and the step functions
never lengthen the vector, so `argsList.length` iterations always suffice. -/
def parseArgsLoop (fuel : Nat) (fs : FlagSet) (argsList : List String) :
    FlagSet × Option GoError :=
  match fuel with
  | 0 => (fs, none)
  | fuel + 1 =>
    match argsList with
    | [] => (fs, none)
    | s :: args =>
      -- a positional token (empty, not starting with '-', or exactly "-"):
      -- in interspersed mode collect it and continue, otherwise it and all
      -- remaining tokens end the scan
      if s.toList.head? ≠ some '-' ∨ s.toList.length == 1 then
        if ¬fs.interspersed then
          ({ fs with args := fs.args ++ [s] ++ args }, none)
        else
          parseArgsLoop fuel { fs with args := fs.args ++ [s] } args
      else if (s.toList.drop 1).head? = some '-' then
        if s.toList.length == 2 then
          ({ fs with argsLenAtDash := (fs.args.length : Int), args := fs.args ++ args }, none)
        else
          let r := fs.parseLongArg s args
          match r.2.2 with
          | some e => (r.1, some e)
          | none => parseArgsLoop fuel r.1 r.2.1
      else
        let r := fs.parseShortArg s args
        match r.2.2 with
        | some e => (r.1, some e)
        | none => parseArgsLoop fuel r.1 r.2.1

/-- `parseArgs` entry point with sufficient fuel. -/
def parseArgs (fs : FlagSet) (args : List String) : FlagSet × Option GoError :=
  parseArgsLoop (args.length + 1) fs args

/-- `Parse` via `parseAll` (`flag.go` lines 1161-1203): mark parsed, reset
the positional-argument accumulator when the vector is non-empty, and run the
token loop.  The returned outcome is what `parseAll` sees before applying the
error-handling policy; the `ContinueOnError` policy returns it unchanged,
while `ExitOnError`/`PanicOnError` perform process-level effects outside the
model. -/
def Parse (fs : FlagSet) (arguments : List String) : FlagSet × Option GoError :=
  let fs := { fs with parsed := true }
  if arguments.isEmpty then (fs, none)
  else parseArgs { fs with args := [] } arguments

end FlagSet

/-! ### Concrete registries used by the claims -/

/-- Registry with one `stringSlice` flag named `flag` whose declared default is
`d0` (an arbitrary list, to show the first set discards it). -/
def fsC1 (d0 : List String) : FlagSet :=
  (NewFlagSet "cmd" .ContinueOnError).mustAdd
    { Name := "flag", Value := .stringSliceValue d0 false }

/-- Registry with the unknown-flags allowlist enabled and one int flag
`known`. -/
def fsC2 : FlagSet :=
  { (NewFlagSet "cmd" .ContinueOnError).mustAdd
      { Name := "known", Value := .intValue 0 } with
    ParseErrorsAllowlistUnknownFlags := true }

/-- Registry with a bool flag `verbose` (shorthand `v`, no-option default
`true`, as `BoolVar` registers it) and an int flag `num` (shorthand `n`,
no no-option default). -/
def fsC3 : FlagSet :=
  ((NewFlagSet "cmd" .ContinueOnError).mustAdd
      { Name := "verbose", Shorthand := some 'v', Value := .boolValue false,
        NoOptDefVal := "true" }).mustAdd
    { Name := "num", Shorthand := some 'n', Value := .intValue 0 }

/-- The int flag of `fsC4`. -/
def numFlag4 : Flag := { Name := "num", Value := .intValue 0 }

/-- Registry with one int flag `num` (used to witness the long-form value
resolution). -/
def fsC4 : FlagSet :=
  (NewFlagSet "cmd" .ContinueOnError).mustAdd numFlag4

/-- Registry defining a bool flag literally named `not-a-flag`, so that
"no flag is set" is observable on the terminator example. -/
def fsC5 : FlagSet :=
  (NewFlagSet "cmd" .ContinueOnError).mustAdd
    { Name := "not-a-flag", Value := .boolValue false, NoOptDefVal := "true" }

/-- Registry with one counter flag `count`, shorthand `v`, no-option default
`"+1"`, exactly as `CountVar` registers it. -/
def fsC6 : FlagSet :=
  (NewFlagSet "cmd" .ContinueOnError).mustAdd
    { Name := "count", Shorthand := some 'v', Value := .countValue 0, NoOptDefVal := "+1" }

/-- The flag that is registered first in the duplicate-registration witness. -/
def dupFlag7 : Flag := { Name := "dup", Shorthand := some 'x', Value := .intValue 0 }

/-- Registry already containing `dupFlag7` (name `dup`, shorthand `x`). -/
def fsC7 : FlagSet :=
  (NewFlagSet "cmd" .ContinueOnError).mustAdd dupFlag7

/-- The string flag of `fsC8`. -/
def strFlag8 : Flag := { Name := "s", Value := .stringValue "x" }

/-- Registry with one string flag `s` (used to witness the typed-getter
mismatch). -/
def fsC8 : FlagSet :=
  (NewFlagSet "cmd" .ContinueOnError).mustAdd strFlag8

/-- The int flag of `fsC9`. -/
def numFlag9 : Flag := { Name := "num", Value := .intValue 0 }

/-- Registry with one int flag `num` (used to witness the `Set` bookkeeping). -/
def fsC9 : FlagSet :=
  (NewFlagSet "cmd" .ContinueOnError).mustAdd numFlag9

/-- Registry with an int flag `num` currently holding 7 and a bool flag `on`
currently holding `true`. -/
def fsC10 : FlagSet :=
  ((NewFlagSet "cmd" .ContinueOnError).mustAdd
      { Name := "num", Value := .intValue 7 }).mustAdd
    { Name := "on", Value := .boolValue true }

/-! ### Shared lemmas -/

/-- `find?` after a name-preserving conditional rewrite of the matching
element: the found element is the rewritten original. -/
theorem find?_map_name_preserving (l : List Flag) (nn : String) (g : Flag → Flag)
    (hg : ∀ fl, (g fl).Name = fl.Name) :
    (l.map (fun fl => if fl.Name == nn then g fl else fl)).find? (fun fl => fl.Name == nn)
      = (l.find? (fun fl => fl.Name == nn)).map g := by
  induction l with
  | nil => rfl
  | cons fl l ih =>
    cases hb : (fl.Name == nn) with
    | true =>
      have h : fl.Name = nn := by simpa using hb
      simp [List.find?_cons, hb, h, hg, -List.find?_map]
    | false =>
      have h' : ¬((fl.Name == nn) = true) := by simp [hb]
      rw [List.map_cons, if_neg h', List.find?_cons, List.find?_cons, hb]
      exact ih

/-! ### The claims -/

/-- C1: for the slice flag value, the first `Set` after creation replaces the
entire stored content (discarding any declared default `d0`), and every later
`Set` appends the newly parsed elements; hence parsing `--flag=a,b` then
`--flag=c` in one `Parse` yields exactly `[a,b,c]`, while `--flag=a,b` alone
yields exactly `[a,b]` — for every declared default. -/
theorem c1_stringSlice_first_overwrites_then_appends :
    (∀ d0 : List String,
      ((fsC1 d0).Parse ["--flag=a,b", "--flag=c"]).1.GetStringSlice "flag" =
        (["a", "b", "c"], none) ∧
      ((fsC1 d0).Parse ["--flag=a,b", "--flag=c"]).2 = none ∧
      ((fsC1 d0).Parse ["--flag=a,b"]).1.GetStringSlice "flag" = (["a", "b"], none) ∧
      ((fsC1 d0).Parse ["--flag=a,b"]).2 = none) ∧
    (∀ (v : List String) (s : String) (parsed : List String),
      readAsCSV s = .ok parsed →
      (Val.stringSliceValue v false).Set s = (.stringSliceValue parsed true, none) ∧
      (Val.stringSliceValue v true).Set s = (.stringSliceValue (v ++ parsed) true, none)) := by
  constructor
  · intro d0
    exact ⟨rfl, rfl, rfl, rfl⟩
  · intro v s parsed h
    constructor
    · simp [Val.Set, h]
    · simp [Val.Set, h]

/-- Witness for C1 at concrete inputs. -/
theorem c1_witness :
    (Val.stringSliceValue ["d1"] false).Set "x,y" =
      (.stringSliceValue ["x", "y"] true, none) ∧
    (Val.stringSliceValue ["a", "b"] true).Set "c" =
      (.stringSliceValue ["a", "b", "c"] true, none) :=
  ⟨(c1_stringSlice_first_overwrites_then_appends.2 ["d1"] "x,y" ["x", "y"] rfl).1,
   (c1_stringSlice_first_overwrites_then_appends.2 ["a", "b"] "c" ["c"] rfl).2⟩

/-- C2 counterexample: on the vector `["--unknown-flag", "foo", "--known=1"]`
with the allowlist enabled, the unknown list is `["--unknown-flag", "foo"]`
(the raw token, and the discarded value), so it does not contain the bare
name `"unknown-flag"` claimed by the spec. -/
theorem c2_counterexample :
    (fsC2.Parse ["--unknown-flag", "foo", "--known=1"]).1.GetUnknownFlags =
      ["--unknown-flag", "foo"] ∧
    "unknown-flag" ∉ (fsC2.Parse ["--unknown-flag", "foo", "--known=1"]).1.GetUnknownFlags :=
  ⟨rfl, by decide⟩

/-- C2 (amended): parsing `["--unknown-flag", "foo", "--known=1"]` with the
allowlist enabled succeeds; the unknown list contains the raw token
`"--unknown-flag"` (it also records the discarded value `"foo"`); `foo` is
consumed as the unknown flag's discarded value and does not appear in the
positional arguments; and `known` is set to 1. -/
theorem c2_unknown_flag_tolerance :
    (fsC2.Parse ["--unknown-flag", "foo", "--known=1"]).2 = none ∧
    "--unknown-flag" ∈ (fsC2.Parse ["--unknown-flag", "foo", "--known=1"]).1.GetUnknownFlags ∧
    (fsC2.Parse ["--unknown-flag", "foo", "--known=1"]).1.args = [] ∧
    (fsC2.Parse ["--unknown-flag", "foo", "--known=1"]).1.GetInt "known" = (1, none) :=
  ⟨rfl, by decide, rfl, rfl⟩

/-- C3: with a bool flag `verbose` (shorthand `v`, no-option default `true`)
and an int flag `num` (shorthand `n`, no no-option default), parsing
`["-vn", "5"]` succeeds and assigns `v = true` and `n = 5`: the cluster keeps
decoding after `v` (which takes its no-option default) and `n`, last in the
cluster with no remainder, consumes the next token `"5"`. -/
theorem c3_shorthand_cluster :
    (fsC3.Parse ["-vn", "5"]).2 = none ∧
    (fsC3.Parse ["-vn", "5"]).1.GetBool "verbose" = (true, none) ∧
    (fsC3.Parse ["-vn", "5"]).1.GetInt "num" = (5, none) ∧
    (fsC3.Parse ["-vn", "5"]).1.args = [] :=
  ⟨rfl, rfl, rfl, rfl⟩

/-- C4: for a resolved long-form token `--name[...]`, the assigned value is,
in this exact priority order, the text after the first `=` when present, else
the non-empty no-option default, else the next vector token (consumed), else
a "flag needs an argument" failure with no assignment. -/
theorem c4_long_value_priority (fs : FlagSet) (s : String) (c : Char)
    (cs : List Char) (args : List String) (flag : Flag)
    (hs : s.toList = '-' :: '-' :: c :: cs)
    (hc1 : c ≠ '-') (hc2 : c ≠ '=')
    (hflag : fs.lookupNorm (fs.normalizeFlagName (splitN2Eq (c :: cs)).1) = some flag)
    (hso : flag.ShorthandOnly = false) :
    (∀ v, (splitN2Eq (c :: cs)).2 = some v →
      fs.parseLongArg s args =
        ((fs.Set flag.Name v).1, args, (fs.Set flag.Name v).2.map GoError.errMsg)) ∧
    ((splitN2Eq (c :: cs)).2 = none → flag.NoOptDefVal ≠ "" →
      fs.parseLongArg s args =
        ((fs.Set flag.Name flag.NoOptDefVal).1, args,
         (fs.Set flag.Name flag.NoOptDefVal).2.map GoError.errMsg)) ∧
    (∀ a ra, (splitN2Eq (c :: cs)).2 = none → flag.NoOptDefVal = "" → args = a :: ra →
      fs.parseLongArg s args =
        ((fs.Set flag.Name a).1, ra, (fs.Set flag.Name a).2.map GoError.errMsg)) ∧
    ((splitN2Eq (c :: cs)).2 = none → flag.NoOptDefVal = "" → args = [] →
      fs.parseLongArg s args = (fs, [], some (.errMsg ("flag needs an argument: " ++ s)))) := by
  have hdrop : s.toList.drop 2 = c :: cs := by rw [hs]; rfl
  have hcc : ¬(c = '-' ∨ c = '=') := by
    rintro (h | h)
    · exact hc1 h
    · exact hc2 h
  refine ⟨?_, ?_, ?_, ?_⟩
  · intro v hv
    simp only [FlagSet.parseLongArg, hdrop, if_neg hcc, hflag, hso, hv]
    rfl
  · intro hv hnod
    simp only [FlagSet.parseLongArg, hdrop, if_neg hcc, hflag, hso, hv, if_pos hnod]
    rfl
  · intro a ra hv hnod hargs
    simp only [FlagSet.parseLongArg, hdrop, if_neg hcc, hflag, hso, hv, hnod, hargs]
    simp
  · intro hv hnod hargs
    simp only [FlagSet.parseLongArg, hdrop, if_neg hcc, hflag, hso, hv, hnod, hargs]
    simp

/-- Witness for C4: the `=`-suffix case on the concrete token `--num=7`. -/
theorem c4_witness :
    fsC4.parseLongArg "--num=7" [] =
      ((fsC4.Set "num" "7").1, [], (fsC4.Set "num" "7").2.map GoError.errMsg) :=
  (c4_long_value_priority fsC4 "--num=7" 'n' "um=7".toList [] numFlag4
      rfl (by decide) (by decide) rfl rfl).1 "7" rfl

/-- C5: a token of exactly `--` records the current positional count as the
terminator index, appends every remaining token as positional, and stops (for
every registry state and every remainder); concretely, parsing
`["--", "--not-a-flag", "pos1"]` sets no flag, yields positionals
`["--not-a-flag", "pos1"]`, and terminator index 0. -/
theorem c5_terminator :
    (∀ (fs : FlagSet) (rest : List String),
      fs.parseArgs ("--" :: rest) =
        ({ fs with argsLenAtDash := (fs.args.length : Int), args := fs.args ++ rest }, none)) ∧
    (fsC5.Parse ["--", "--not-a-flag", "pos1"]).2 = none ∧
    (fsC5.Parse ["--", "--not-a-flag", "pos1"]).1.args = ["--not-a-flag", "pos1"] ∧
    (fsC5.Parse ["--", "--not-a-flag", "pos1"]).1.argsLenAtDash = 0 ∧
    (fsC5.Parse ["--", "--not-a-flag", "pos1"]).1.actual = [] ∧
    (fsC5.Parse ["--", "--not-a-flag", "pos1"]).1.ChangedFlag "not-a-flag" = false :=
  ⟨fun _ _ => rfl, rfl, rfl, rfl, rfl, rfl⟩

/-- C6 counterexample: with the counter flag named `count` (shorthand `v`,
no-option default `"+1"`), parsing `["--count", "-v", "-v", "-v"]` yields 4,
not the claimed 3 — the long-form occurrence `--count` also increments. -/
theorem c6_counterexample :
    (fsC6.Parse ["--count", "-v", "-v", "-v"]).1.GetCount "count" = (4, none) ∧
    ¬((fsC6.Parse ["--count", "-v", "-v", "-v"]).1.GetCount "count" = (3, none)) :=
  ⟨rfl, by decide⟩

/-- C6 (amended): parsing `["--count", "-v", "-v", "-v"]` yields a final
counter value of 4 (every occurrence increments, the long form included);
the three shorthand occurrences alone yield 3. -/
theorem c6_count_increments :
    (fsC6.Parse ["--count", "-v", "-v", "-v"]).2 = none ∧
    (fsC6.Parse ["--count", "-v", "-v", "-v"]).1.GetCount "count" = (4, none) ∧
    (fsC6.Parse ["-v", "-v", "-v"]).1.GetCount "count" = (3, none) :=
  ⟨rfl, rfl, rfl⟩

/-- C7: registering a flag whose normalized name is already registered, or
whose shorthand is already bound, aborts with the registration-time panic
(modelled as the `Except.error` of `AddFlag`) instead of overwriting, and the
outcome is the same under every error-handling policy. -/
theorem c7_duplicate_registration_aborts (fs : FlagSet) (flag : Flag) :
    ((fs.lookupNorm (fs.normalizeFlagName flag.Name)).isSome = true →
      ∀ eh, ({ fs with errorHandling := eh } : FlagSet).AddFlag flag =
        .error (fs.name ++ " flag redefined: " ++ flag.Name)) ∧
    (∀ c used, fs.lookupNorm (fs.normalizeFlagName flag.Name) = none →
      flag.Shorthand = some c →
      fs.shorthands.find? (fun p => p.1 == c) = some used →
      ∀ eh, ({ fs with errorHandling := eh } : FlagSet).AddFlag flag =
        .error ("unable to redefine " ++ quoteRune c ++ " shorthand in " ++
                quoteStr fs.name ++ " flagset: it is already used for " ++
                quoteStr used.2 ++ " flag")) := by
  constructor
  · intro hdup eh
    simp only [FlagSet.AddFlag, FlagSet.normalizeFlagName, FlagSet.lookupNorm] at hdup ⊢
    rw [if_pos hdup]
  · intro c used hfresh hsh hbound eh
    simp only [FlagSet.AddFlag, FlagSet.normalizeFlagName, FlagSet.lookupNorm] at hfresh ⊢
    rw [hfresh]
    simp only [Option.isSome_none, Bool.false_eq_true, if_false, hsh, hbound]

/-- Witness for C7: re-registering the name `dup` and re-binding the
shorthand `x` both abort, under the `ContinueOnError` policy. -/
theorem c7_witness :
    ({ fsC7 with errorHandling := .ContinueOnError } : FlagSet).AddFlag
        { Name := "dup", Value := .intValue 0 } =
      .error ("cmd flag redefined: dup") ∧
    ({ fsC7 with errorHandling := .ContinueOnError } : FlagSet).AddFlag
        { Name := "fresh", Shorthand := some 'x', Value := .intValue 0 } =
      .error ("unable to redefine " ++ quoteRune 'x' ++ " shorthand in " ++
              quoteStr "cmd" ++ " flagset: it is already used for " ++
              quoteStr "dup" ++ " flag") :=
  ⟨(c7_duplicate_registration_aborts fsC7 { Name := "dup", Value := .intValue 0 }).1
      rfl .ContinueOnError,
   (c7_duplicate_registration_aborts fsC7
        { Name := "fresh", Shorthand := some 'x', Value := .intValue 0 }).2
      'x' ('x', "dup") rfl rfl rfl .ContinueOnError⟩

/-- C8: a typed getter applied to a flag whose Value reports a different type
identifier returns the zero value only alongside a type-mismatch error (never
a coerced value), and any getter applied to an undefined name returns the
"accessed but not defined" error. -/
theorem c8_typed_getters (fs : FlagSet) (name : String) :
    (fs.Lookup name = none →
      fs.Get name = .error ("flag accessed but not defined: " ++ name) ∧
      fs.GetInt name = (0, some ("flag accessed but not defined: " ++ name))) ∧
    (∀ flag, fs.Lookup name = some flag → flag.Value.typeName ≠ "int" →
      fs.GetInt name =
        (0, some ("trying to get " ++ quoteStr "int" ++ " value of flag of type " ++
                  quoteStr flag.Value.typeName))) ∧
    (∀ flag, fs.Lookup name = some flag → flag.Value.typeName ≠ "bool" →
      fs.GetBool name =
        (false, some ("trying to get " ++ quoteStr "bool" ++ " value of flag of type " ++
                      quoteStr flag.Value.typeName))) := by
  refine ⟨?_, ?_, ?_⟩
  · intro hnone
    constructor
    · simp only [FlagSet.Get, FlagSet.getFlagType, hnone]
    · simp only [FlagSet.GetInt, FlagSet.getFlagType, hnone]
  · intro flag hsome ht
    have hcond : ("int" ≠ "" ∧ flag.Value.typeName ≠ "int") := ⟨by decide, ht⟩
    simp only [FlagSet.GetInt, FlagSet.getFlagType, hsome, if_pos hcond]
  · intro flag hsome ht
    have hcond : ("bool" ≠ "" ∧ flag.Value.typeName ≠ "bool") := ⟨by decide, ht⟩
    simp only [FlagSet.GetBool, FlagSet.getFlagType, hsome, if_pos hcond]

/-- Witness for C8: the int getter against the string flag `s`, and a getter
against the undefined name `missing`. -/
theorem c8_witness :
    fsC8.GetInt "s" =
      (0, some ("trying to get " ++ quoteStr "int" ++ " value of flag of type " ++
                quoteStr "string")) ∧
    fsC8.Get "missing" = .error ("flag accessed but not defined: " ++ "missing") :=
  ⟨(c8_typed_getters fsC8 "s").2.1 strFlag8 rfl (by decide),
   ((c8_typed_getters fsC8 "missing").1 rfl).1⟩

/-- C9: a `Set` whose coercion fails returns the invalid-argument error naming
the flag and the rejected text and leaves `Changed` and the `actual`
collection untouched; a successful `Set` marks `Changed` and appends to
`actual` only on the first success, so a flag appears in `actual` exactly once
however often it is set. -/
theorem c9_set_changed_and_actual (fs : FlagSet) (name value : String) (flag : Flag)
    (hflag : fs.lookupNorm (fs.normalizeFlagName name) = some flag) :
    (∀ v' err, flag.Value.Set value = (v', some err) →
      fs.Set name value =
        (fs.updateFormal (fs.normalizeFlagName name) (fun fl => { fl with Value := v' }),
         some ("invalid argument " ++ quoteStr value ++ " for " ++
               quoteStr (flagNameLabel flag) ++ " flag: " ++ err)) ∧
      (fs.Set name value).1.actual = fs.actual ∧
      ((fs.Set name value).1.lookupNorm (fs.normalizeFlagName name)).map Flag.Changed =
        some flag.Changed) ∧
    (∀ v', flag.Value.Set value = (v', none) →
      (fs.Set name value).2 = none ∧
      ((fs.Set name value).1.lookupNorm (fs.normalizeFlagName name)).map Flag.Changed =
        some true ∧
      (fs.Set name value).1.actual =
        (if flag.Changed then fs.actual else fs.actual ++ [fs.normalizeFlagName name]) ∧
      ((flag.Changed = true ↔ fs.normalizeFlagName name ∈ fs.actual) →
        fs.actual.count (fs.normalizeFlagName name) ≤ 1 →
        (fs.Set name value).1.actual.count (fs.normalizeFlagName name) = 1)) := by
  have hflag' : List.find? (fun fl => fl.Name == fs.normalizeFlagName name) fs.formal
      = some flag := hflag
  constructor
  · intro v' err h
    refine ⟨?_, ?_, ?_⟩
    · simp only [FlagSet.Set, hflag, h]
    · simp only [FlagSet.Set, hflag, h, FlagSet.updateFormal]
    · simp only [FlagSet.Set, hflag, h, FlagSet.lookupNorm, FlagSet.updateFormal, hflag']
      rw [find?_map_name_preserving fs.formal (fs.normalizeFlagName name)
            (fun fl => { fl with Value := v' }) (fun _ => rfl), hflag']
      rfl
  · intro v' h
    by_cases hch : flag.Changed = true
    · refine ⟨?_, ?_, ?_, ?_⟩
      · simp only [FlagSet.Set, hflag, h, if_pos hch]
      · simp only [FlagSet.Set, hflag, h, if_pos hch, FlagSet.lookupNorm,
          FlagSet.updateFormal, hflag']
        rw [find?_map_name_preserving fs.formal (fs.normalizeFlagName name)
              (fun fl => { fl with Value := v' }) (fun _ => rfl), hflag']
        simp [hch]
      · simp only [FlagSet.Set, hflag, h, if_pos hch, FlagSet.updateFormal]
      · intro hiff hcnt
        simp only [FlagSet.Set, hflag, h, if_pos hch, FlagSet.updateFormal]
        have h1 : 0 < fs.actual.count (fs.normalizeFlagName name) :=
          List.count_pos_iff.mpr (hiff.mp hch)
        omega
    · refine ⟨?_, ?_, ?_, ?_⟩
      · simp only [FlagSet.Set, hflag, h, if_neg hch]
      · simp only [FlagSet.Set, hflag, h, if_neg hch, FlagSet.lookupNorm,
          FlagSet.updateFormal, hflag']
        rw [find?_map_name_preserving fs.formal (fs.normalizeFlagName name)
              (fun fl => { fl with Value := v', Changed := true }) (fun _ => rfl), hflag']
        rfl
      · simp only [FlagSet.Set, hflag, h, if_neg hch, FlagSet.updateFormal]
      · intro hiff hcnt
        have hmem : fs.normalizeFlagName name ∉ fs.actual := fun hm => hch (hiff.mpr hm)
        have h0 : fs.actual.count (fs.normalizeFlagName name) = 0 :=
          List.count_eq_zero.mpr hmem
        simp only [FlagSet.Set, hflag, h, if_neg hch, FlagSet.updateFormal]
        simp [List.count_append, h0]

/-- Witness for C9: a successful first `Set` on the fresh flag `num`. -/
theorem c9_witness :
    (fsC9.Set "num" "5").2 = none ∧ (fsC9.Set "num" "5").1.actual = ["num"] := by
  have H := (c9_set_changed_and_actual fsC9 "num" "5" numFlag9 rfl).2 (Val.intValue 5) rfl
  refine ⟨H.1, ?_⟩
  rw [H.2.2.1]
  rfl

/-- C10: scalar Values are not atomic on parse failure — a malformed input
makes `Set` return an error after it has already overwritten the cell with the
zero result of the failed conversion, losing the previous value while the flag
stays unmarked (`Changed = false`). -/
theorem c10_scalar_set_not_atomic :
    (Val.intValue 7).Set "abc" =
      (.intValue 0, some ("strconv.ParseInt: parsing " ++ quoteStr "abc" ++
                          ": invalid syntax")) ∧
    (Val.boolValue true).Set "xyz" =
      (.boolValue false, some ("strconv.ParseBool: parsing " ++ quoteStr "xyz" ++
                               ": invalid syntax")) ∧
    (fsC10.Set "num" "abc").2.isSome = true ∧
    ((fsC10.Set "num" "abc").1.Lookup "num").map Flag.Value = some (.intValue 0) ∧
    ((fsC10.Set "num" "abc").1.Lookup "num").map Flag.Changed = some false ∧
    (fsC10.Set "on" "xyz").2.isSome = true ∧
    ((fsC10.Set "on" "xyz").1.Lookup "on").map Flag.Value = some (.boolValue false) ∧
    ((fsC10.Set "on" "xyz").1.Lookup "on").map Flag.Changed = some false :=
  ⟨rfl, rfl, rfl, rfl, rfl, rfl, rfl, rfl⟩

end Zflag
